import Mathlib

/-!
Verification development for the Smart Diet Planner app (`src/app.py`).

The Python source is shallowly embedded: JSON values become the inductive
`JVal`, Python dicts become association lists (keys unique, as in a dict),
Python truthiness becomes `truthy`, and fallible operations return
`Option`/`Except`.  Machine-level details that cannot occur in the modelled
fragment (floating-point JSON numbers, unicode digit classes accepted by
Python `int`) are outside the embedding; all theorems below use inputs inside
the modelled fragment.
-/

/-- A JSON value as produced by Python `json.loads`: `None`, booleans,
integer numbers, strings, lists and dicts (dicts as association lists in
insertion order).  Float literals are outside the modelled fragment. -/
inductive JVal where
  | null : JVal
  | bool : Bool → JVal
  | num : Int → JVal
  | str : String → JVal
  | arr : List JVal → JVal
  | obj : List (String × JVal) → JVal

mutual
/-- Python `repr` of a JSON value (what `str` shows inside containers). -/
def pyRepr : JVal → String
  | .null => "None"
  | .bool true => "True"
  | .bool false => "False"
  | .num n => toString n
  | .str s => "\x27" ++ s ++ "\x27"
  | .arr xs => "[" ++ pyReprList xs ++ "]"
  | .obj kvs => "\x7b" ++ pyReprObj kvs ++ "\x7d"

/-- `repr` of the elements of a Python list, comma separated. -/
def pyReprList : List JVal → String
  | [] => ""
  | [x] => pyRepr x
  | x :: xs => pyRepr x ++ ", " ++ pyReprList xs

/-- `repr` of the entries of a Python dict, comma separated. -/
def pyReprObj : List (String × JVal) → String
  | [] => ""
  | [(k, v)] => "\x27" ++ k ++ "\x27: " ++ pyRepr v
  | (k, v) :: kvs => "\x27" ++ k ++ "\x27: " ++ pyRepr v ++ ", " ++ pyReprObj kvs
end

/-- Python `str` applied to a JSON value: identity on strings, `repr`
otherwise (`str(None) = "None"`, `str(5) = "5"`, `str(True) = "True"`). -/
def pyStr : JVal → String
  | .str s => s
  | v => pyRepr v

/-- Python truthiness of a JSON value: `None`, `False`, `0`, `""`, `[]` and
`\x7b\x7d` are falsy, everything else truthy. -/
def truthy : JVal → Bool
  | .null => false
  | .bool b => b
  | .num n => n != 0
  | .str s => s != ""
  | .arr xs => !xs.isEmpty
  | .obj kvs => !kvs.isEmpty

/-- Python `a or b` under truthiness: `a` if truthy, else `b`. -/
def pyOr (a b : JVal) : JVal :=
  if truthy a then a else b

/-- Python `d.get(k)` on a dict: the stored value, or `None` when absent. -/
def getJ (o : List (String × JVal)) (k : String) : JVal :=
  match o.find? (fun kv => kv.1 = k) with
  | some kv => kv.2
  | none => .null

/-- Interpret a list of decimal digit characters as a number; `none` if the
list is empty or contains a non-digit. -/
def parseDigits : List Char → Option Nat
  | [] => none
  | cs =>
    cs.foldl
      (fun acc c =>
        match acc with
        | none => none
        | some n => if c.isDigit then some (n * 10 + (c.toNat - 48)) else none)
      (some 0)

/-- Python `s.strip()` on the modelled (ASCII whitespace) fragment: drop
whitespace from both ends. -/
def pyStrip (s : String) : String :=
  String.mk ((s.toList.dropWhile Char.isWhitespace).reverse.dropWhile Char.isWhitespace).reverse

/-- Python `int(s)` on a string in the modelled (ASCII, no underscore)
fragment: strip surrounding whitespace, optional sign, then a non-empty run
of decimal digits; anything else raises, modelled as `none`. -/
def parsePyInt (s : String) : Option Int :=
  match (pyStrip s).toList with
  | '-' :: rest => (parseDigits rest).map (fun n => -(n : Int))
  | '+' :: rest => (parseDigits rest).map (fun n => (n : Int))
  | cs => (parseDigits cs).map (fun n => (n : Int))

/-- Python `s.replace(pat, repl)` for a non-empty pattern, over character
lists: scan left to right, replacing each occurrence; fuelled by the input
length (one character is consumed per step, so the fuel suffices). -/
def replaceAll : Nat → List Char → List Char → List Char → List Char
  | 0, _, _, _ => []
  | _ + 1, [], _, _ => []
  | fuel + 1, c :: cs, pat, repl =>
    if pat ≠ [] ∧ pat.isPrefixOf (c :: cs) then
      repl ++ replaceAll fuel ((c :: cs).drop pat.length) pat repl
    else
      c :: replaceAll fuel cs pat repl

/-- `s.replace(pat, repl)` on strings (non-empty pattern). -/
def pyReplace (s pat repl : String) : String :=
  String.mk (replaceAll s.toList.length s.toList pat.toList repl.toList)

/-- The seven canonical weekday names (`VALID_DAYS` in `app.py`). -/
def VALID_DAYS : List String :=
  ["Monday", "Tuesday", "Wednesday", "Thursday", "Friday", "Saturday", "Sunday"]

/-- A normalized meal as built by `normalize_diet_plan`: the coalesced dish
value, the coalesced quantity value (dicts keep whatever truthy value the
provider sent, so these stay `JVal`), and the coerced calorie count. -/
structure Meal where
  dish : JVal
  standard_quantity : JVal
  calories : Int

/-- The dish coalescing `m.get("dish") or m.get("meal") or m.get("item")`. -/
def dishOf (m : List (String × JVal)) : JVal :=
  pyOr (getJ m "dish") (pyOr (getJ m "meal") (getJ m "item"))

/-- The quantity coalescing
`m.get("standard_quantity") or m.get("quantity") or "1 serving"`. -/
def qtyOf (m : List (String × JVal)) : JVal :=
  pyOr (getJ m "standard_quantity") (pyOr (getJ m "quantity") (.str "1 serving"))

/-- The calories coalescing `m.get("calories") or m.get("kcal") or m.get("cal")`. -/
def calFieldOf (m : List (String × JVal)) : JVal :=
  pyOr (getJ m "calories") (pyOr (getJ m "kcal") (getJ m "cal"))

/-- `int(str(cal).replace("kcal", "").strip())`, with the `try`/`except`
modelled as `Option`: `none` is the coercion failure that discards a meal. -/
def coerceCal (cal : JVal) : Option Int :=
  parsePyInt (pyStrip (pyReplace (pyStr cal) "kcal" ""))

/-- The per-meal body of the `for m in meals` loop for a dict entry `m`:
`some meal` when the meal is kept, `none` when it is discarded (calorie
coercion failure, falsy dish, or calories ≤ 0). -/
def normalize_meal (m : List (String × JVal)) : Option Meal :=
  match coerceCal (calFieldOf m) with
  | none => none
  | some cal =>
    if truthy (dishOf m) && decide (0 < cal) then
      some ⟨dishOf m, qtyOf m, cal⟩
    else
      none

/-- The `clean` list built by the meal loop.  A non-dict entry makes Python
raise `AttributeError` on `m.get` (outside the `try`), modelled as
`Except.error`. -/
def clean_meals : List JVal → Except Unit (List Meal)
  | [] => .ok []
  | m :: rest =>
    match m with
    | .obj kvs =>
      match normalize_meal kvs with
      | some meal => (clean_meals rest).map (fun tail => meal :: tail)
      | none => clean_meals rest
    | _ => .error ()

/-- The envelope unwrapping: if the top-level dict has exactly one key whose
value is itself a dict, replace the dict by that value; otherwise keep it. -/
def unwrapEnvelope (raw : List (String × JVal)) : List (String × JVal) :=
  match raw with
  | [(_, .obj inner)] => inner
  | _ => raw

/-- The day loop of `normalize_diet_plan` over the (already unwrapped) raw
dict: for each canonical weekday whose value is a list, clean its meals and
keep the day when at least one meal survived. -/
def buildDays (r : List (String × JVal)) : List String → Except Unit (List (String × List Meal))
  | [] => .ok []
  | d :: ds =>
    match getJ r d with
    | .arr meals =>
      match clean_meals meals with
      | .error e => .error e
      | .ok clean =>
        if clean.isEmpty then buildDays r ds
        else (buildDays r ds).map (fun tail => (d, clean) :: tail)
    | _ => buildDays r ds

/-- Result of `normalize_diet_plan`: a plan, the `st.error`/`st.stop`
terminal failure when no day survived, or an uncaught Python exception
(non-dict meal entry). -/
inductive NormResult where
  | ok : List (String × List Meal) → NormResult
  | invalidError : NormResult
  | pyError : NormResult

/-- `normalize_diet_plan(raw)` on a parsed top-level dict. -/
def normalize_diet_plan (raw : List (String × JVal)) : NormResult :=
  match buildDays (unwrapEnvelope raw) VALID_DAYS with
  | .error _ => .pyError
  | .ok final => if final.isEmpty then .invalidError else .ok final

/-- The day loop applied directly to a dict, with no envelope unwrapping:
the continuation of `normalize_diet_plan` after line 113. -/
def normalizeFrom (r : List (String × JVal)) : NormResult :=
  match buildDays r VALID_DAYS with
  | .error _ => .pyError
  | .ok final => if final.isEmpty then .invalidError else .ok final

/-- JSON whitespace: exactly the four whitespace characters of the JSON
grammar accepted by `json.loads`. -/
def jsonWs (c : Char) : Bool :=
  c = ' ' || c = '\t' || c = '\n' || c = '\r'

/-- Drop leading JSON whitespace. -/
def skipWs (cs : List Char) : List Char :=
  cs.dropWhile jsonWs

/-- Value of a hexadecimal digit. -/
def hexVal (c : Char) : Option Nat :=
  if c.isDigit then some (c.toNat - 48)
  else if 'a' ≤ c && c ≤ 'f' then some (c.toNat - 87)
  else if 'A' ≤ c && c ≤ 'F' then some (c.toNat - 55)
  else none

/-- Modelled from the spec: the body of a JSON string literal as read by
`json.loads` (the Python standard library, not repository code), after the
opening quote: characters and escapes up to the closing quote, returning the
decoded characters and the rest of the input. -/
def parseJStr : Nat → List Char → Option (List Char × List Char)
  | 0, _ => none
  | _ + 1, [] => none
  | fuel + 1, c :: cs =>
    if c = '"' then some ([], cs)
    else if c = '\\' then
      match cs with
      | [] => none
      | 'u' :: a :: b :: c2 :: d :: cs' =>
        match hexVal a, hexVal b, hexVal c2, hexVal d with
        | some ha, some hb, some hc, some hd =>
          (parseJStr fuel cs').map
            (fun p => (Char.ofNat (((ha * 16 + hb) * 16 + hc) * 16 + hd) :: p.1, p.2))
        | _, _, _, _ => none
      | e :: cs' =>
        let decoded : Option Char :=
          if e = '"' then some '"'
          else if e = '\\' then some '\\'
          else if e = '/' then some '/'
          else if e = 'n' then some '\n'
          else if e = 't' then some '\t'
          else if e = 'r' then some '\r'
          else if e = 'b' then some (Char.ofNat 8)
          else if e = 'f' then some (Char.ofNat 12)
          else none
        match decoded with
        | some ch => (parseJStr fuel cs').map (fun p => (ch :: p.1, p.2))
        | none => none
    else
      (parseJStr fuel cs).map (fun p => (c :: p.1, p.2))

/-- `true` when the input continues with a fraction or exponent part: such
numbers parse as Python floats, which are outside the modelled fragment. -/
def floatStart : List Char → Bool
  | '.' :: _ => true
  | 'e' :: _ => true
  | 'E' :: _ => true
  | _ => false

/-- Numeric value of a run of decimal digits. -/
def digitsVal (ds : List Char) : Nat :=
  ds.foldl (fun n c => n * 10 + (c.toNat - 48)) 0

/-- Modelled from the spec: a JSON number token as read by `json.loads`
(standard library), restricted to the integer fragment: optional minus, no
leading zeros, and `none` on a fraction/exponent (a float, outside the
modelled fragment). -/
def parseNum (cs : List Char) : Option (JVal × List Char) :=
  let neg : Bool := match cs with | '-' :: _ => true | _ => false
  let cs1 := match cs with | '-' :: r => r | _ => cs
  match cs1 with
  | c :: tl =>
    if c.isDigit then
      if c = '0' && (match tl with | d :: _ => d.isDigit | _ => false) then none
      else
        let ds := cs1.takeWhile Char.isDigit
        let rest := cs1.dropWhile Char.isDigit
        if floatStart rest then none
        else some (.num (if neg then -(digitsVal ds : Int) else (digitsVal ds : Int)), rest)
    else none
  | [] => none

mutual
/-- Modelled from the spec: a JSON value as read by `json.loads` (standard
library), on the integer-numeral fragment; fuelled recursion (the fuel used
at the top level is ample for any input of the given length). -/
def parseVal : Nat → List Char → Option (JVal × List Char)
  | 0, _ => none
  | fuel + 1, cs =>
    match skipWs cs with
    | 'n' :: 'u' :: 'l' :: 'l' :: rest => some (.null, rest)
    | 't' :: 'r' :: 'u' :: 'e' :: rest => some (.bool true, rest)
    | 'f' :: 'a' :: 'l' :: 's' :: 'e' :: rest => some (.bool false, rest)
    | '"' :: rest => (parseJStr rest.length rest).map (fun p => (.str (String.mk p.1), p.2))
    | '[' :: rest =>
      match skipWs rest with
      | ']' :: rest1 => some (.arr [], rest1)
      | _ => (parseElems fuel rest).map (fun p => (.arr p.1, p.2))
    | '\x7b' :: rest =>
      match skipWs rest with
      | '\x7d' :: rest1 => some (.obj [], rest1)
      | _ => (parseMembers fuel rest).map (fun p => (.obj p.1, p.2))
    | cs1 => parseNum cs1

/-- The comma-separated elements of a non-empty JSON array, up to `]`. -/
def parseElems : Nat → List Char → Option (List JVal × List Char)
  | 0, _ => none
  | fuel + 1, cs =>
    match parseVal fuel cs with
    | none => none
    | some (v, rest) =>
      match skipWs rest with
      | ']' :: rest1 => some ([v], rest1)
      | ',' :: rest1 => (parseElems fuel rest1).map (fun p => (v :: p.1, p.2))
      | _ => none

/-- The comma-separated members of a non-empty JSON object, up to the closing
brace.  (Python keeps the last of duplicate keys; duplicate keys do not occur
in any input considered here.) -/
def parseMembers : Nat → List Char → Option (List (String × JVal) × List Char)
  | 0, _ => none
  | fuel + 1, cs =>
    match skipWs cs with
    | '"' :: rest =>
      match parseJStr rest.length rest with
      | none => none
      | some (key, rest1) =>
        match skipWs rest1 with
        | ':' :: rest2 =>
          match parseVal fuel rest2 with
          | none => none
          | some (v, rest3) =>
            match skipWs rest3 with
            | '\x7d' :: rest4 => some ([(String.mk key, v)], rest4)
            | ',' :: rest4 =>
              (parseMembers fuel rest4).map (fun p => ((String.mk key, v) :: p.1, p.2))
            | _ => none
        | _ => none
    | _ => none
end

/-- Modelled from the spec: `json.loads` (standard library) on the
integer-numeral fragment: one JSON value followed only by whitespace. -/
def parseJson (s : String) : Option JVal :=
  match parseVal (2 * s.length + 4) s.toList with
  | some (v, rest) => if (skipWs rest).isEmpty then some v else none
  | none => none

/-- The fence stripping of `extract_json`:
`text.replace("```json", "").replace("```", "")`. -/
def stripFences (s : String) : String :=
  pyReplace (pyReplace s "```json" "") "```" ""

/-- The regex step of `extract_json`: `re.search(r"\{[\s\S]*\}", text)`.
The pattern is greedy, so the match (when it exists) runs from the first
opening brace to the last closing brace after it. -/
def grabSpan (cs : List Char) : Option (List Char) :=
  match ((cs.dropWhile (fun c => c ≠ '\x7b')).reverse.dropWhile (fun c => c ≠ '\x7d')).reverse with
  | [] => none
  | c :: cs1 => some (c :: cs1)

/-- `extract_json(text)`: strip markdown fences, regex-match a brace span,
parse it as JSON; `None` (here `none`) when either step fails. -/
def extract_json (text : String) : Option JVal :=
  match grabSpan (stripFences text).toList with
  | none => none
  | some span => parseJson (String.mk span)

/-- `load_json(path, default)`.  `content` is the state of the file at the
path (`none` when it does not exist, in which case the default is returned).
An existing file is parsed with `json.load`; the code has no handler, so a
parse failure raises `JSONDecodeError`, modelled as `Except.error`. -/
def load_json (content : Option String) (default : JVal) : Except Unit JVal :=
  match content with
  | none => .ok default
  | some s =>
    match parseJson s with
    | some v => .ok v
    | none => .error ()

/-- `signup(email, password)` over the users file contents (a dict from
email to password hash, modelled as an association list in insertion order).
The hash function `hp` models `hashlib.sha256(...).hexdigest()`, an external
deterministic digest.  Returns the boolean result paired with the users file
contents after the call (the code saves only on success). -/
def signup (hp : String → String) (users : List (String × String)) (email pwd : String) :
    Bool × List (String × String) :=
  if users.any (fun kv => kv.1 = email) then (false, users)
  else (true, users ++ [(email, hp pwd)])

/-- `planned = sum(m["calories"] for m in st.session_state.diet[day])`. -/
def planned_calories (meals : List Meal) : Int :=
  (meals.map Meal.calories).sum

/-- The live per-meal input of the tracker for one meal of today: the
`st.number_input` quantity (a real number in `[0, 5]`, modelled as `ℚ`) and
the `st.checkbox` eaten flag. -/
structure MealInput where
  qty : ℚ
  eaten : Bool

/-- The `consumed` accumulation of the tracker loop: starting from `0`, each
meal adds `m["calories"] * qty` when the day is today and the meal is marked
eaten (on a non-today day the loop forces `eaten = False`, adding nothing). -/
def consumed_calories (is_today : Bool) (meals : List Meal) (inputs : List MealInput) : ℚ :=
  if is_today then
    (meals.zip inputs).foldl
      (fun acc p => if p.2.eaten then acc + (p.1.calories : ℚ) * p.2.qty else acc) 0
  else 0

/-- `remaining = max(0, planned - consumed)`. -/
def remaining (planned : Int) (consumed : ℚ) : ℚ :=
  max 0 ((planned : ℚ) - consumed)

/-- A Daily Summary Record as stored in the history file: weekday label,
planned and consumed calories. -/
structure DayRec where
  day : String
  planned : Int
  consumed : Int

/-- pandas `df.sort_index()` on the date-indexed history rows: a stable sort
by the date index (dates after `pd.to_datetime`, modelled as `Nat`). -/
def sortByDate (hist : List (Nat × DayRec)) : List (Nat × DayRec) :=
  hist.mergeSort (fun a b => decide (a.1 ≤ b.1))

/-- pandas `df.tail(7)`: the last 7 rows, or all rows when fewer than 7. -/
def lastSeven (l : List (Nat × DayRec)) : List (Nat × DayRec) :=
  l.drop (l.length - 7)

/-- The rows the weekly chart is built from: the user\x27s history sorted by
date ascending, then the final 7 rows. -/
def weeklyRows (hist : List (Nat × DayRec)) : List (Nat × DayRec) :=
  lastSeven (sortByDate hist)

/-- The `planned` chart series: one point per kept row. -/
def plannedSeries (hist : List (Nat × DayRec)) : List Int :=
  (weeklyRows hist).map (fun r => r.2.planned)

/-- The `consumed` chart series: one point per kept row. -/
def consumedSeries (hist : List (Nat × DayRec)) : List Int :=
  (weeklyRows hist).map (fun r => r.2.consumed)

/-- Spec-side predicate, from the spec words only (for comparison with the
code): a dish that is "a non-empty dish name", i.e. a non-empty string. -/
def isNonemptyDishName : JVal → Bool
  | .str s => s != ""
  | _ => false

/-- Helper for `firstBalancedSpan`: scan from an opening brace, tracking
brace depth, accumulating the span in reverse; `none` if braces never
balance. -/
def balancedSpanAux : Nat → List Char → Nat → List Char → Option (List Char)
  | 0, _, _, _ => none
  | _ + 1, [], _, _ => none
  | fuel + 1, c :: cs, depth, acc =>
    if c = '\x7b' then balancedSpanAux fuel cs (depth + 1) (c :: acc)
    else if c = '\x7d' then
      if depth = 1 then some (c :: acc).reverse
      else balancedSpanAux fuel cs (depth - 1) (c :: acc)
    else balancedSpanAux fuel cs depth (c :: acc)

/-- Spec-side definition, from the spec words only (for comparison with the
code): "the first balanced \x7b...\x7d span" of a text — from the first
opening brace to its matching closing brace. -/
def firstBalancedSpan (cs : List Char) : Option (List Char) :=
  let tl := cs.dropWhile (fun c => c ≠ '\x7b')
  balancedSpanAux tl.length tl 0 []

/-! ## Helper lemmas -/

theorem pyOr_of_truthy {a b : JVal} (h : truthy a = true) : pyOr a b = a := by
  simp [pyOr, h]

theorem pyOr_of_falsy {a b : JVal} (h : truthy a = false) : pyOr a b = b := by
  simp [pyOr, h]

theorem getJ_eq_null_of_not_mem {o : List (String × JVal)} {k : String}
    (h : ∀ v, (k, v) ∉ o) : getJ o k = .null := by
  have hn : o.find? (fun kv => decide (kv.1 = k)) = none := by
    apply List.find?_eq_none.2
    intro x hx
    simp only [decide_eq_true_eq]
    intro hk
    cases x with
    | mk a b =>
      apply h b
      rw [← hk]
      exact hx
  simp [getJ, hn]

theorem normalize_meal_some {m : List (String × JVal)} {meal : Meal}
    (h : normalize_meal m = some meal) :
    truthy meal.dish = true ∧ 0 < meal.calories := by
  unfold normalize_meal at h
  split at h
  · cases h
  · split at h
    · rename_i cal hc ht
      cases h
      simp only [Bool.and_eq_true, decide_eq_true_eq] at ht
      exact ht
    · cases h

theorem clean_meals_ok_mem {ms : List JVal} {l : List Meal}
    (h : clean_meals ms = .ok l) :
    ∀ meal ∈ l, truthy meal.dish = true ∧ 0 < meal.calories := by
  induction ms generalizing l with
  | nil =>
    cases h
    intro meal hm
    cases hm
  | cons m rest ih =>
    cases m with
    | obj kvs =>
      simp only [clean_meals] at h
      cases hn : normalize_meal kvs with
      | some meal0 =>
        rw [hn] at h
        cases hr : clean_meals rest with
        | error e => rw [hr] at h; cases h
        | ok tl =>
          rw [hr] at h
          cases h
          intro meal hm
          cases hm with
          | head => exact normalize_meal_some hn
          | tail _ hm2 => exact ih hr meal hm2
      | none => rw [hn] at h; exact ih h
    | null => cases h
    | bool b => cases h
    | num n => cases h
    | str s => cases h
    | arr xs => cases h

theorem buildDays_ok_mem {r : List (String × JVal)} {ds : List String}
    {l : List (String × List Meal)} (h : buildDays r ds = .ok l) :
    ∀ d meals, (d, meals) ∈ l →
      meals ≠ [] ∧ ∀ meal ∈ meals, truthy meal.dish = true ∧ 0 < meal.calories := by
  induction ds generalizing l with
  | nil =>
    cases h
    intro d meals hm
    cases hm
  | cons d0 ds0 ih =>
    simp only [buildDays] at h
    cases hg : getJ r d0 with
    | arr meals0 =>
      rw [hg] at h
      dsimp only at h
      cases hc : clean_meals meals0 with
      | error e => rw [hc] at h; cases h
      | ok clean =>
        rw [hc] at h
        dsimp only at h
        by_cases he : clean.isEmpty
        · rw [if_pos he] at h
          exact ih h
        · rw [if_neg he] at h
          cases hr : buildDays r ds0 with
          | error e => rw [hr] at h; cases h
          | ok tl =>
            rw [hr] at h
            cases h
            intro d meals hm
            cases hm with
            | head =>
              constructor
              · intro hnil
                rw [hnil] at he
                exact he rfl
              · exact clean_meals_ok_mem hc
            | tail _ hm2 => exact ih hr d meals hm2
    | null => rw [hg] at h; exact ih h
    | bool b => rw [hg] at h; exact ih h
    | num n => rw [hg] at h; exact ih h
    | str s => rw [hg] at h; exact ih h
    | obj kvs => rw [hg] at h; exact ih h

theorem buildDays_ok_nil_of_no_list {r : List (String × JVal)} {ds : List String}
    (h : ∀ d ∈ ds, ∀ xs, getJ r d ≠ .arr xs) : buildDays r ds = .ok [] := by
  induction ds with
  | nil => rfl
  | cons d0 ds0 ih =>
    simp only [buildDays]
    cases hg : getJ r d0 with
    | arr meals0 => exact absurd hg (h d0 (by simp) meals0)
    | null => exact ih (fun d hd => h d (by simp [hd]))
    | bool b => exact ih (fun d hd => h d (by simp [hd]))
    | num n => exact ih (fun d hd => h d (by simp [hd]))
    | str s => exact ih (fun d hd => h d (by simp [hd]))
    | obj kvs => exact ih (fun d hd => h d (by simp [hd]))

theorem unwrapEnvelope_of_not_single {raw : List (String × JVal)}
    (h : ∀ k inner, raw ≠ [(k, .obj inner)]) : unwrapEnvelope raw = raw := by
  match raw with
  | [] => rfl
  | (k, .null) :: [] => rfl
  | (k, .bool b) :: [] => rfl
  | (k, .num n) :: [] => rfl
  | (k, .str s) :: [] => rfl
  | (k, .arr xs) :: [] => rfl
  | (k, .obj inner) :: [] => exact absurd rfl (h k inner)
  | (k, v) :: b :: tl => cases v <;> rfl

/-! ## Claim theorems -/

/-- C1 counterexample: a meal whose `dish` field holds the truthy non-string
`5` is retained by the normalizer, so not every retained meal has a non-empty
dish *name* (a non-empty string), refuting the claim as stated; its calories
part is untouched by this input. -/
theorem normalized_meal_nonstring_dish_cex :
    normalize_diet_plan [("Monday", .arr [.obj [("dish", .num 5), ("calories", .str "100")]])]
        = .ok [("Monday", [⟨.num 5, .str "1 serving", 100⟩])]
      ∧ isNonemptyDishName (JVal.num 5) = false :=
  ⟨rfl, rfl⟩

/-- C1 (amended): for every raw input accepted by the normalizer, every meal
in the output has strictly positive integer calories and a truthy dish value
(in particular a non-empty string whenever the dish is a string); no meal
whose calories coerce to ≤ 0 or fail integer coercion is retained. -/
theorem normalized_meals_positive_calories_truthy_dish :
    ∀ (raw : List (String × JVal)) (plan : List (String × List Meal)),
      normalize_diet_plan raw = .ok plan →
      ∀ d meals, (d, meals) ∈ plan →
        ∀ meal ∈ meals, truthy meal.dish = true ∧ 0 < meal.calories := by
  intro raw plan h d meals hdm meal hm
  unfold normalize_diet_plan at h
  cases hb : buildDays (unwrapEnvelope raw) VALID_DAYS with
  | error e => rw [hb] at h; cases h
  | ok final =>
    rw [hb] at h
    dsimp only at h
    by_cases he : final.isEmpty
    · rw [if_pos he] at h; cases h
    · rw [if_neg he] at h
      cases h
      exact (buildDays_ok_mem hb d meals hdm).2 meal hm

/-- Witness for C1 (amended), at the spec example input. -/
theorem normalized_meals_positive_calories_truthy_dish_witness :
    truthy (JVal.str "Poha") = true ∧ 0 < (250 : Int) :=
  normalized_meals_positive_calories_truthy_dish
    [("Monday", .arr [.obj [("dish", .str "Poha"), ("calories", .str "250kcal")]])]
    [("Monday", [⟨.str "Poha", .str "1 serving", 250⟩])] rfl
    "Monday" [⟨.str "Poha", .str "1 serving", 250⟩] (by simp)
    ⟨.str "Poha", .str "1 serving", 250⟩ (by simp)

/-- C2: a top-level dict with exactly one key whose value is a dict is
unwrapped exactly one level — the weekday lookup then runs on the inner dict
(never deeper, as the second conjunct shows on a doubly wrapped input) — and
a dict of any other shape is not unwrapped at all. -/
theorem unwrap_exactly_one_level :
    (∀ (k : String) (inner : List (String × JVal)),
        normalize_diet_plan [(k, .obj inner)] = normalizeFrom inner)
    ∧ (∀ (k k2 : String) (inner2 : List (String × JVal)),
        normalize_diet_plan [(k, .obj [(k2, .obj inner2)])] = normalizeFrom [(k2, .obj inner2)])
    ∧ (∀ raw : List (String × JVal),
        (∀ k inner, raw ≠ [(k, .obj inner)]) → normalize_diet_plan raw = normalizeFrom raw) := by
  refine ⟨fun k inner => rfl, fun k k2 inner2 => rfl, fun raw h => ?_⟩
  unfold normalize_diet_plan normalizeFrom
  rw [unwrapEnvelope_of_not_single h]

/-- Witness for C2, at a two-key dict (not unwrapped). -/
theorem unwrap_exactly_one_level_witness :
    normalize_diet_plan [("a", JVal.null), ("b", JVal.null)]
      = normalizeFrom [("a", JVal.null), ("b", JVal.null)] :=
  unwrap_exactly_one_level.2.2 [("a", JVal.null), ("b", JVal.null)] (by intro k inner; simp)

/-- C3: the normalizer never returns an empty plan — an accepted result has
at least one day — and on a dict (after unwrapping) in which no canonical
weekday key holds a list, it ends in the `st.error`/`st.stop` terminal
failure. -/
theorem no_valid_day_terminal_failure :
    (∀ raw : List (String × JVal), normalize_diet_plan raw ≠ .ok [])
    ∧ (∀ raw : List (String × JVal),
        (∀ d ∈ VALID_DAYS, ∀ xs, getJ (unwrapEnvelope raw) d ≠ .arr xs) →
        normalize_diet_plan raw = .invalidError) := by
  constructor
  · intro raw h
    unfold normalize_diet_plan at h
    cases hb : buildDays (unwrapEnvelope raw) VALID_DAYS with
    | error e => rw [hb] at h; cases h
    | ok final =>
      rw [hb] at h
      dsimp only at h
      by_cases he : final.isEmpty
      · rw [if_pos he] at h; cases h
      · rw [if_neg he] at h
        cases h
        exact he rfl
  · intro raw h
    unfold normalize_diet_plan
    rw [buildDays_ok_nil_of_no_list h]
    rfl

/-- Witness for C3, at the empty dict (no weekday keys at all). -/
theorem no_valid_day_terminal_failure_witness :
    normalize_diet_plan [] = .invalidError :=
  no_valid_day_terminal_failure.2 [] (fun _ _ _ h => JVal.noConfusion h)

/-- C4 counterexample: a meal whose calories are "250 cal" is discarded —
the code removes only the literal substring "kcal", so this non-numeric
suffix is not stripped, although the digits "250" alone would coerce —
refuting "coerces ... by stripping non-numeric suffix text". -/
theorem calorie_suffix_not_stripped_cex :
    clean_meals [.obj [("dish", .str "Oats"), ("calories", .str "250 cal")]] = .ok []
      ∧ coerceCal (.str "250 cal") = none
      ∧ parsePyInt "250" = some 250 :=
  ⟨rfl, rfl, rfl⟩

/-- C4 (amended): dish is coalesced through the "dish"/"meal"/"item"
aliases, the quantity defaults to "1 serving" when no quantity alias is
present, and calories are coerced to an integer after deleting every
occurrence of the literal substring "kcal" (not arbitrary non-numeric
suffixes) and stripping whitespace; when the coercion fails, exactly that
one meal is discarded and the rest of the day is still processed. -/
theorem meal_field_aliases_and_coercion :
    (∀ (kvs : List (String × JVal)) (rest : List JVal),
        coerceCal (calFieldOf kvs) = none →
        clean_meals (.obj kvs :: rest) = clean_meals rest)
    ∧ (∀ kvs : List (String × JVal),
        (∀ v, ("standard_quantity", v) ∉ kvs) → (∀ v, ("quantity", v) ∉ kvs) →
        qtyOf kvs = .str "1 serving")
    ∧ (∀ kvs : List (String × JVal),
        truthy (getJ kvs "dish") = true → dishOf kvs = getJ kvs "dish")
    ∧ (∀ kvs : List (String × JVal),
        truthy (getJ kvs "dish") = false →
        dishOf kvs = pyOr (getJ kvs "meal") (getJ kvs "item"))
    ∧ coerceCal (.str "250kcal") = some 250
    ∧ coerceCal (.str "250 kcal") = some 250
    ∧ coerceCal (.str "25kcal0kcal") = some 250
    ∧ coerceCal (.str " 250 ") = some 250 := by
  refine ⟨?_, ?_, ?_, ?_, rfl, rfl, rfl, rfl⟩
  · intro kvs rest hc
    simp only [clean_meals, normalize_meal, hc]
  · intro kvs h1 h2
    unfold qtyOf
    rw [getJ_eq_null_of_not_mem h1, getJ_eq_null_of_not_mem h2]
    rfl
  · intro kvs h
    exact pyOr_of_truthy h
  · intro kvs h
    exact pyOr_of_falsy h

/-- Witness for C4 (amended): a failing first meal is dropped while the
second meal of the day is still processed, and a meal dict with no quantity
alias defaults to "1 serving". -/
theorem meal_field_aliases_and_coercion_witness :
    clean_meals [.obj [("dish", .str "Tea"), ("calories", .str "abc")],
        .obj [("dish", .str "Poha"), ("calories", .num 250)]]
      = clean_meals [.obj [("dish", .str "Poha"), ("calories", .num 250)]]
    ∧ qtyOf [("dish", .str "Poha")] = .str "1 serving" := by
  constructor
  · exact meal_field_aliases_and_coercion.1
      [("dish", .str "Tea"), ("calories", .str "abc")]
      [.obj [("dish", .str "Poha"), ("calories", .num 250)]] rfl
  · exact meal_field_aliases_and_coercion.2.1 [("dish", .str "Poha")]
      (by intro v; simp) (by intro v; simp)


theorem dropWhile_head_not {p : Char → Bool} {l : List Char} {c : Char} {cs : List Char}
    (h : l.dropWhile p = c :: cs) : p c = false := by
  induction l with
  | nil => cases h
  | cons a l ih =>
    rw [List.dropWhile_cons] at h
    by_cases hp : p a = true
    · rw [if_pos hp] at h
      exact ih h
    · rw [if_neg hp] at h
      cases h
      exact Bool.eq_false_iff.mpr hp

theorem grabSpan_structure {cs span : List Char} (h : grabSpan cs = some span) :
    ∃ pre post, cs = pre ++ span ++ post
      ∧ (∀ c ∈ pre, c ≠ '\x7b') ∧ (∀ c ∈ post, c ≠ '\x7d')
      ∧ span.head? = some '\x7b' ∧ span.getLast? = some '\x7d' := by
  unfold grabSpan at h
  cases hrev : ((cs.dropWhile (fun c => decide (c ≠ '\x7b'))).reverse.dropWhile
      (fun c => decide (c ≠ '\x7d'))).reverse with
  | nil => rw [hrev] at h; cases h
  | cons c0 cs1 =>
    rw [hrev] at h
    cases h
    have h1 : ((cs.dropWhile (fun c => decide (c ≠ '\x7b'))).reverse.takeWhile
          (fun c => decide (c ≠ '\x7d')))
        ++ ((cs.dropWhile (fun c => decide (c ≠ '\x7b'))).reverse.dropWhile
          (fun c => decide (c ≠ '\x7d')))
        = (cs.dropWhile (fun c => decide (c ≠ '\x7b'))).reverse :=
      List.takeWhile_append_dropWhile _ _
    have hfb : cs.dropWhile (fun c => decide (c ≠ '\x7b'))
        = (c0 :: cs1) ++ ((cs.dropWhile (fun c => decide (c ≠ '\x7b'))).reverse.takeWhile
            (fun c => decide (c ≠ '\x7d'))).reverse := by
      conv_lhs => rw [← List.reverse_reverse (cs.dropWhile (fun c => decide (c ≠ '\x7b'))),
        ← h1]
      rw [List.reverse_append, hrev]
    refine ⟨cs.takeWhile (fun c => decide (c ≠ '\x7b')),
      ((cs.dropWhile (fun c => decide (c ≠ '\x7b'))).reverse.takeWhile
        (fun c => decide (c ≠ '\x7d'))).reverse, ?_, ?_, ?_, ?_, ?_⟩
    · conv_lhs => rw [← List.takeWhile_append_dropWhile
        (fun c => decide (c ≠ '\x7b')) cs, hfb]
      rw [List.append_assoc]
    · intro c hc
      have := List.mem_takeWhile_imp hc
      simpa using this
    · intro c hc
      rw [List.mem_reverse] at hc
      have := List.mem_takeWhile_imp hc
      simpa using this
    · have hb := dropWhile_head_not (hfb.trans (List.cons_append c0 cs1 _))
      simp only [decide_eq_false_iff_not, not_not] at hb
      simp [hb]
    · have hdw : (cs.dropWhile (fun c => decide (c ≠ '\x7b'))).reverse.dropWhile
            (fun c => decide (c ≠ '\x7d'))
          = (c0 :: cs1).reverse := by
        rw [← hrev, List.reverse_reverse]
      cases hrev2 : (c0 :: cs1).reverse with
      | nil => exact absurd (congrArg List.length hrev2) (by simp)
      | cons d ds =>
        have hpd := dropWhile_head_not (hdw.trans hrev2)
        simp only [decide_eq_false_iff_not, not_not] at hpd
        rw [← List.head?_reverse, hrev2]
        simp [hpd]

/-- C5 counterexample: on a fence-free response containing two top-level
JSON objects, the first balanced brace span parses (as the claim predicts a
success), but `extract_json` returns `none`: the greedy regex grabs from the
first opening brace to the *last* closing brace, which is not valid JSON —
so the extraction is not "the first balanced span". -/
theorem extract_json_not_first_balanced_cex :
    extract_json "\x7b\"a\": 1\x7d x \x7b\"b\": 2\x7d" = none
      ∧ firstBalancedSpan ("\x7b\"a\": 1\x7d x \x7b\"b\": 2\x7d".toList)
          = some ("\x7b\"a\": 1\x7d".toList)
      ∧ parseJson "\x7b\"a\": 1\x7d" = some (.obj [("a", .num 1)]) :=
  ⟨rfl, rfl, rfl⟩

/-- C5 (amended): `extract_json` strips the markdown fence markers, then
takes the span running from the first opening brace to the last closing
brace of the stripped text (the greedy regex match: no opening brace before
the span, no closing brace after it) and parses that span as JSON; it
returns `none` when no such span exists or the span does not parse. -/
theorem extract_json_greedy_span :
    (∀ text : String, grabSpan (stripFences text).toList = none → extract_json text = none)
    ∧ (∀ (text : String) (span : List Char),
        grabSpan (stripFences text).toList = some span →
        extract_json text = parseJson (String.mk span))
    ∧ (∀ cs span : List Char, grabSpan cs = some span →
        ∃ pre post, cs = pre ++ span ++ post
          ∧ (∀ c ∈ pre, c ≠ '\x7b') ∧ (∀ c ∈ post, c ≠ '\x7d')
          ∧ span.head? = some '\x7b' ∧ span.getLast? = some '\x7d') := by
  refine ⟨?_, ?_, fun cs span h => grabSpan_structure h⟩
  · intro text h
    unfold extract_json
    rw [h]
  · intro text span h
    unfold extract_json
    rw [h]

/-- Witness for C5 (amended): the span grabbed from "x\x7b1\x7dy" is
"\x7b1\x7d" and extraction parses exactly that span. -/
theorem extract_json_greedy_span_witness :
    extract_json "x\x7b1\x7dy" = parseJson (String.mk ("\x7b1\x7d".toList))
      ∧ ∃ pre post, "x\x7b1\x7dy".toList = pre ++ "\x7b1\x7d".toList ++ post
          ∧ (∀ c ∈ pre, c ≠ '\x7b') ∧ (∀ c ∈ post, c ≠ '\x7d')
          ∧ ("\x7b1\x7d".toList).head? = some '\x7b'
          ∧ ("\x7b1\x7d".toList).getLast? = some '\x7d' :=
  ⟨extract_json_greedy_span.2.1 "x\x7b1\x7dy" ("\x7b1\x7d".toList) rfl,
    extract_json_greedy_span.2.2 ("x\x7b1\x7dy".toList) ("\x7b1\x7d".toList) rfl⟩

/-- C6: a second registration for a user id already in the store returns
`false` and leaves the store exactly as the first registration left it,
while registering an absent user id appends `(user_id, hash(secret))` and
returns `true`. -/
theorem signup_duplicate_rejected :
    ∀ (hp : String → String) (users : List (String × String)) (email pwd pwd2 : String),
      ((∃ v, (email, v) ∈ users) → signup hp users email pwd = (false, users))
      ∧ ((∀ v, (email, v) ∉ users) →
          signup hp users email pwd = (true, users ++ [(email, hp pwd)]))
      ∧ signup hp (signup hp users email pwd).2 email pwd2
          = (false, (signup hp users email pwd).2) := by
  intro hp users email pwd pwd2
  refine ⟨?_, ?_, ?_⟩
  · rintro ⟨v, hv⟩
    have ha : users.any (fun kv => decide (kv.1 = email)) = true := by
      rw [List.any_eq_true]
      exact ⟨(email, v), hv, by simp⟩
    simp [signup, ha]
  · intro hnone
    have ha : users.any (fun kv => decide (kv.1 = email)) = false := by
      rw [List.any_eq_false]
      intro x hx
      simp only [decide_eq_true_eq]
      intro he
      cases x with
      | mk a b =>
        apply hnone b
        rw [← he]
        exact hx
    simp [signup, ha]
  · by_cases hmem : users.any (fun kv => decide (kv.1 = email)) = true
    · simp [signup, hmem]
    · simp only [Bool.not_eq_true] at hmem
      simp [signup, hmem, List.any_append]

/-- Witness for C6: registering "a@x.com" in an empty store succeeds and
stores the hash; the immediate second registration fails and leaves the
store unchanged. -/
theorem signup_duplicate_rejected_witness :
    signup (fun s => s ++ "#") [] "a@x.com" "pw" = (true, [("a@x.com", "pw#")])
      ∧ signup (fun s => s ++ "#") (signup (fun s => s ++ "#") [] "a@x.com" "pw").2 "a@x.com" "pw2"
          = (false, (signup (fun s => s ++ "#") [] "a@x.com" "pw").2) :=
  ⟨(signup_duplicate_rejected (fun s => s ++ "#") [] "a@x.com" "pw" "pw2").2.1
      (fun _ h => absurd h (List.not_mem_nil _)),
    (signup_duplicate_rejected (fun s => s ++ "#") [] "a@x.com" "pw" "pw2").2.2⟩

theorem consumed_foldl_eq (l : List (Meal × MealInput)) (acc : ℚ) :
    l.foldl (fun acc p => if p.2.eaten then acc + (p.1.calories : ℚ) * p.2.qty else acc) acc
      = acc + ((l.filter (fun p => p.2.eaten)).map
          (fun p => (p.1.calories : ℚ) * p.2.qty)).sum := by
  induction l generalizing acc with
  | nil => simp
  | cons hd tl ih =>
    cases he : hd.2.eaten with
    | true =>
      simp only [List.foldl_cons, List.filter_cons, he, if_true, List.map_cons,
        List.sum_cons, ih]
      ring
    | false =>
      simp only [List.foldl_cons, List.filter_cons, he, if_false, ih]
      simp

/-- C7: on today, consumed is the sum of `calories * quantity` over exactly
the meals marked eaten, planned is the sum of calories over all meals of the
day, and remaining is `max(0, planned - consumed)` and hence never negative;
at the spec example (calories 200 and 300, first meal eaten at quantity 1.5,
second not eaten) consumed is 300, planned 500 and remaining 200. -/
theorem daily_tracker_totals :
    (∀ (meals : List Meal) (inputs : List MealInput),
        consumed_calories true meals inputs
          = (((meals.zip inputs).filter (fun p => p.2.eaten)).map
              (fun p => (p.1.calories : ℚ) * p.2.qty)).sum)
    ∧ (∀ (p : Int) (c : ℚ), remaining p c = max 0 ((p : ℚ) - c) ∧ 0 ≤ remaining p c)
    ∧ consumed_calories true
        [⟨.str "A", .str "1 serving", 200⟩, ⟨.str "B", .str "1 serving", 300⟩]
        [⟨3 / 2, true⟩, ⟨1, false⟩] = 300
    ∧ planned_calories [⟨.str "A", .str "1 serving", 200⟩, ⟨.str "B", .str "1 serving", 300⟩]
        = 500
    ∧ remaining 500 300 = 200 := by
  refine ⟨?_, fun p c => ⟨rfl, le_max_left 0 _⟩, ?_, rfl, ?_⟩
  · intro meals inputs
    simp [consumed_calories, consumed_foldl_eq]
  · norm_num [consumed_calories]
  · norm_num [remaining]

/-- C8 counterexample: an existing but unparseable document is not treated
as the empty default — `json.load` raises (uncaught), refuting the claim
that a corrupt document is silently replaced by the default. -/
theorem load_json_corrupt_raises_cex :
    load_json (some "oops") (.obj []) = .error ()
      ∧ (Except.error () : Except Unit JVal) ≠ .ok (.obj []) :=
  ⟨rfl, fun h => Except.noConfusion h⟩

/-- C8 (amended): a missing document is silently treated as the supplied
default; an existing document that parses is returned; an existing document
that does not parse raises `JSONDecodeError` instead of returning the
default. -/
theorem load_json_missing_default_corrupt_raises :
    (∀ default : JVal, load_json none default = .ok default)
    ∧ (∀ (s : String) (default v : JVal), parseJson s = some v →
        load_json (some s) default = .ok v)
    ∧ (∀ (s : String) (default : JVal), parseJson s = none →
        load_json (some s) default = .error ()) := by
  refine ⟨fun d => rfl, ?_, ?_⟩
  · intro s d v h
    unfold load_json
    dsimp only
    rw [h]
  · intro s d h
    unfold load_json
    dsimp only
    rw [h]

/-- Witness for C8 (amended): an empty-object document is returned as
parsed, and a corrupt document raises. -/
theorem load_json_missing_default_corrupt_raises_witness :
    load_json (some "\x7b\x7d") JVal.null = .ok (.obj [])
      ∧ load_json (some "nope") JVal.null = .error () :=
  ⟨load_json_missing_default_corrupt_raises.2.1 "\x7b\x7d" JVal.null (.obj []) rfl,
    load_json_missing_default_corrupt_raises.2.2 "nope" JVal.null rfl⟩

/-- C9: the weekly chart rows are the history sorted by date ascending with
only the final 7 entries kept (all of them when fewer than 7 exist), so each
series has length at most 7, and — when the saved dates are distinct, as
dict keys are — every row not kept is strictly older than every kept row. -/
theorem weekly_chart_last_seven :
    ∀ hist : List (Nat × DayRec),
      (weeklyRows hist).length = min hist.length 7
      ∧ (plannedSeries hist).length ≤ 7
      ∧ (consumedSeries hist).length ≤ 7
      ∧ List.Pairwise (fun a b => a.1 ≤ b.1) (weeklyRows hist)
      ∧ ∃ dropped, (dropped ++ weeklyRows hist).Perm hist
          ∧ ((hist.map Prod.fst).Nodup →
              ∀ a ∈ dropped, ∀ b ∈ weeklyRows hist, a.1 < b.1) := by
  intro hist
  have hperm : (sortByDate hist).Perm hist := List.mergeSort_perm hist _
  have hsorted : List.Pairwise
      (fun a b : Nat × DayRec => decide (a.1 ≤ b.1) = true) (sortByDate hist) :=
    List.sorted_mergeSort
      (fun a b c hab hbc => by
        simp only [decide_eq_true_eq] at *
        omega)
      (fun a b => by
        simp only [Bool.or_eq_true, decide_eq_true_eq]
        exact Nat.le_total a.1 b.1)
      hist
  have hlen : (weeklyRows hist).length = min hist.length 7 := by
    unfold weeklyRows lastSeven
    rw [List.length_drop, hperm.length_eq]
    omega
  have happ : (sortByDate hist).take ((sortByDate hist).length - 7) ++ weeklyRows hist
      = sortByDate hist := by
    unfold weeklyRows lastSeven
    exact List.take_append_drop _ _
  refine ⟨hlen, ?_, ?_, ?_, ?_⟩
  · unfold plannedSeries
    rw [List.length_map, hlen]
    omega
  · unfold consumedSeries
    rw [List.length_map, hlen]
    omega
  · refine List.Pairwise.imp (fun hab => ?_)
      (List.Pairwise.sublist ?_ hsorted)
    · exact decide_eq_true_eq.mp hab
    · unfold weeklyRows lastSeven
      exact List.drop_sublist _ _
  · refine ⟨(sortByDate hist).take ((sortByDate hist).length - 7), ?_, ?_⟩
    · rw [happ]
      exact hperm
    · intro hnodup a ha b hb
      have hpw : List.Pairwise
          (fun a b : Nat × DayRec => decide (a.1 ≤ b.1) = true)
          ((sortByDate hist).take ((sortByDate hist).length - 7) ++ weeklyRows hist) := by
        rw [happ]
        exact hsorted
      have hle : a.1 ≤ b.1 := by
        have := (List.pairwise_append.1 hpw).2.2 a ha b hb
        exact decide_eq_true_eq.mp this
      have hnd : (((sortByDate hist).take ((sortByDate hist).length - 7)
            ++ weeklyRows hist).map Prod.fst).Nodup := by
        rw [happ]
        exact ((hperm.map Prod.fst).symm.nodup hnodup)
      have hne : a.1 ≠ b.1 := by
        rw [List.map_append] at hnd
        have hdisj := List.disjoint_of_nodup_append hnd
        intro heq
        exact hdisj (List.mem_map_of_mem Prod.fst ha)
          (heq ▸ List.mem_map_of_mem Prod.fst hb)
      omega

/-- Witness for C9, at a three-entry history with distinct dates. -/
theorem weekly_chart_last_seven_witness :
    (weeklyRows [(3, ⟨"Wed", 5, 4⟩), (1, ⟨"Mon", 2, 1⟩), (2, ⟨"Tue", 3, 2⟩)]).length
        = min 3 7
      ∧ List.Pairwise (fun a b => a.1 ≤ b.1)
          (weeklyRows [(3, ⟨"Wed", 5, 4⟩), (1, ⟨"Mon", 2, 1⟩), (2, ⟨"Tue", 3, 2⟩)]) :=
  ⟨(weekly_chart_last_seven [(3, ⟨"Wed", 5, 4⟩), (1, ⟨"Mon", 2, 1⟩), (2, ⟨"Tue", 3, 2⟩)]).1,
    (weekly_chart_last_seven [(3, ⟨"Wed", 5, 4⟩), (1, ⟨"Mon", 2, 1⟩), (2, ⟨"Tue", 3, 2⟩)]).2.2.2.1⟩

/-- C10: the field-alias coalescing falls through on *truthiness*, not
presence: a "dish" field holding the empty string defers to the
"meal"/"item" aliases, and a "calories" field holding `0`, `null` or the
empty string defers to the "kcal"/"cal" aliases — a present-but-falsy
primary field is silently overridden by a later alias, as the final concrete
instance shows end to end. -/
theorem alias_truthiness_fallthrough :
    (∀ m : List (String × JVal), getJ m "dish" = .str "" →
        dishOf m = pyOr (getJ m "meal") (getJ m "item"))
    ∧ (∀ m : List (String × JVal), getJ m "calories" = .num 0 →
        calFieldOf m = pyOr (getJ m "kcal") (getJ m "cal"))
    ∧ (∀ m : List (String × JVal), getJ m "calories" = .null →
        calFieldOf m = pyOr (getJ m "kcal") (getJ m "cal"))
    ∧ (∀ m : List (String × JVal), getJ m "calories" = .str "" →
        calFieldOf m = pyOr (getJ m "kcal") (getJ m "cal"))
    ∧ normalize_meal [("dish", .str ""), ("meal", .str "Tea"), ("calories", .num 0),
        ("kcal", .str "100kcal")] = some ⟨.str "Tea", .str "1 serving", 100⟩ := by
  refine ⟨?_, ?_, ?_, ?_, rfl⟩
  · intro m h
    exact pyOr_of_falsy (by rw [h]; rfl)
  · intro m h
    exact pyOr_of_falsy (by rw [h]; rfl)
  · intro m h
    exact pyOr_of_falsy (by rw [h]; rfl)
  · intro m h
    exact pyOr_of_falsy (by rw [h]; rfl)

/-- Witness for C10: a present empty dish defers to "meal"; a present null
calories defers to "cal". -/
theorem alias_truthiness_fallthrough_witness :
    dishOf [("dish", .str ""), ("meal", .str "Tea")]
        = pyOr (getJ [("dish", .str ""), ("meal", .str "Tea")] "meal")
            (getJ [("dish", .str ""), ("meal", .str "Tea")] "item")
      ∧ calFieldOf [("calories", .null), ("cal", .num 120)]
        = pyOr (getJ [("calories", .null), ("cal", .num 120)] "kcal")
            (getJ [("calories", .null), ("cal", .num 120)] "cal") :=
  ⟨alias_truthiness_fallthrough.1 [("dish", .str ""), ("meal", .str "Tea")] rfl,
    alias_truthiness_fallthrough.2.2.1 [("calories", .null), ("cal", .num 120)] rfl⟩
